import Mathlib

/-!
# Verification of the receipt-processor validation-and-scoring engine

Shallow embedding of `src/main.go` (function `ReadReceipt`, lines 39-135),
the validation-and-scoring core of the receipt processor.

Modelling conventions:

* Go strings are modelled as `List Char`.  All inputs exercised by the
  specification are ASCII, where Go's byte-level `len`/slicing and the
  rune-level list length coincide.
* `strconv.ParseFloat` / `strconv.Atoi` are modelled on the plain decimal
  grammar (optional sign, digits, optional fractional part) as *exact*
  rational / integer values; exponent, hex-float and `Inf`/`NaN` forms and
  IEEE-754 rounding are not modelled.  Go returns value `0` together with an
  error for unparsable input, and `main.go` discards the error, so the
  models return `0` on parse failure.
* `math.Mod` (exact for floats, per its documentation) and Go's float→int
  conversion both truncate toward zero; they are modelled by `qtrunc`.
* A Go runtime panic (slice out of range, lines 105 and 114) is modelled by
  the whole computation returning `none`.

Because `Rat.add`, `Rat.sub`, `Rat.mul` and `Rat.inv` are `@[irreducible]`
in the ambient library, the embedding uses its own kernel-computable
rational operations `qadd`/`qsub`/`qmul`/`qdiv` built on `mkRat`, each
proved equal to the corresponding field operation on `ℚ`.
-/

namespace ReceiptProc

/-! ## Kernel-computable rational arithmetic -/

/-- Addition on `ℚ`, computable by kernel reduction. -/
def qadd (a b : ℚ) : ℚ := mkRat (a.num * b.den + b.num * a.den) (a.den * b.den)

/-- Negation on `ℚ`, computable by kernel reduction. -/
def qneg (a : ℚ) : ℚ := mkRat (-a.num) a.den

/-- Subtraction on `ℚ`, computable by kernel reduction. -/
def qsub (a b : ℚ) : ℚ := qadd a (qneg b)

/-- Multiplication on `ℚ`, computable by kernel reduction. -/
def qmul (a b : ℚ) : ℚ := mkRat (a.num * b.num) (a.den * b.den)

/-- Inverse on `ℚ` (with `qinv 0 = 0`), computable by kernel reduction. -/
def qinv (a : ℚ) : ℚ :=
  if a.num < 0 then mkRat (-(a.den : ℤ)) a.num.natAbs
  else mkRat (a.den : ℤ) a.num.natAbs

/-- Division on `ℚ`, computable by kernel reduction. -/
def qdiv (a b : ℚ) : ℚ := qmul a (qinv b)

/-- Embedding of an integer into `ℚ`, computable by kernel reduction. -/
def qofInt (n : ℤ) : ℚ := mkRat n 1

/-- Truncation of a rational toward zero: the semantics both of Go's
float-to-int conversion (`int(price)`, line 102) and of the implicit
truncated quotient inside `math.Mod`. -/
def qtrunc (q : ℚ) : ℤ := Int.tdiv q.num q.den

theorem mkRat_eq_div (n : ℤ) (d : ℕ) : (mkRat n d : ℚ) = (n : ℚ) / (d : ℚ) := by
  rw [Rat.mkRat_eq_divInt, Rat.divInt_eq_div]
  norm_cast

theorem qadd_eq (a b : ℚ) : qadd a b = a + b := by
  have ha : (a.den : ℚ) ≠ 0 := Nat.cast_ne_zero.mpr a.den_ne_zero
  have hb : (b.den : ℚ) ≠ 0 := Nat.cast_ne_zero.mpr b.den_ne_zero
  rw [qadd, mkRat_eq_div]
  conv_rhs => rw [← Rat.num_div_den a, ← Rat.num_div_den b]
  push_cast
  field_simp

theorem qneg_eq (a : ℚ) : qneg a = -a := by
  rw [qneg, mkRat_eq_div]
  conv_rhs => rw [← Rat.num_div_den a]
  push_cast
  ring

theorem qsub_eq (a b : ℚ) : qsub a b = a - b := by
  rw [qsub, qadd_eq, qneg_eq, sub_eq_add_neg]

theorem qmul_eq (a b : ℚ) : qmul a b = a * b := by
  rw [qmul, mkRat_eq_div]
  conv_rhs => rw [← Rat.num_div_den a, ← Rat.num_div_den b]
  push_cast
  ring

theorem qinv_eq (a : ℚ) : qinv a = a⁻¹ := by
  rcases lt_trichotomy a.num 0 with hneg | hzero | hpos
  · rw [qinv, if_pos hneg, mkRat_eq_div]
    have habs : ((a.num.natAbs : ℕ) : ℚ) = -(a.num : ℚ) := by
      rw [Int.cast_natAbs, abs_of_neg hneg]
      push_cast
      ring
    rw [habs]
    conv_rhs => rw [← Rat.num_div_den a]
    rw [inv_div]
    push_cast
    rw [neg_div_neg_eq]
  · have ha : a = 0 := Rat.num_eq_zero.mp hzero
    subst ha
    simp [qinv, Rat.mkRat_zero]
  · rw [qinv, if_neg (by omega), mkRat_eq_div]
    have habs : ((a.num.natAbs : ℕ) : ℚ) = (a.num : ℚ) := by
      rw [Int.cast_natAbs, abs_of_pos hpos]
    rw [habs]
    conv_rhs => rw [← Rat.num_div_den a]
    rw [inv_div]
    push_cast
    ring

theorem qdiv_eq (a b : ℚ) : qdiv a b = a / b := by
  rw [qdiv, qmul_eq, qinv_eq, div_eq_mul_inv]

theorem qofInt_eq (n : ℤ) : qofInt n = (n : ℚ) := by
  rw [qofInt, Rat.mkRat_one]

theorem qtrunc_intCast (n : ℤ) : qtrunc ((n : ℚ)) = n := by
  rw [qtrunc, Rat.intCast_num, Rat.intCast_den, Nat.cast_one, Int.tdiv_one]

theorem qtrunc_nonneg {q : ℚ} (h : 0 ≤ q) : 0 ≤ qtrunc q :=
  Int.tdiv_nonneg (Rat.num_nonneg.mpr h) (by exact_mod_cast Nat.zero_le _)

/-! ## Numeric parsing (`strconv.ParseFloat`, `strconv.Atoi`)

`main.go` always discards the returned error (lines 65, 92, 100, 106, 115),
using the accompanying value, which is `0` whenever parsing fails. -/

/-- Decimal digit test, the character class `[0-9]`. -/
def isDigit (c : Char) : Bool := '0' ≤ c && c ≤ '9'

/-- Numeric value of a decimal digit character. -/
def digVal (c : Char) : ℕ := c.toNat - '0'.toNat

/-- Value of a string of decimal digits, most significant first. -/
def natOfDigits (l : List Char) : ℕ := l.foldl (fun a c => 10 * a + digVal c) 0

/-- Unsigned part of `strconv.ParseFloat` on the decimal grammar
`digits [. digits]` (at least one digit overall), as an exact rational. -/
def parseDecAbs (l : List Char) : Option ℚ :=
  match l.splitOn '.' with
  | [ip] =>
    if !ip.isEmpty && ip.all isDigit then some (mkRat (natOfDigits ip) 1) else none
  | [ip, fp] =>
    if (!ip.isEmpty || !fp.isEmpty) && ip.all isDigit && fp.all isDigit then
      some (mkRat (natOfDigits ip * 10 ^ fp.length + natOfDigits fp) (10 ^ fp.length))
    else none
  | _ => none

/-- Model of `strconv.ParseFloat` (decimal forms): optional sign, then the
unsigned decimal grammar.  `none` models a parse error. -/
def parseFloatOpt (l : List Char) : Option ℚ :=
  match l with
  | '-' :: r => (parseDecAbs r).map qneg
  | '+' :: r => parseDecAbs r
  | r => parseDecAbs r

/-- The value `main.go` actually uses after `v, _ := strconv.ParseFloat(s, 64)`:
the parsed value, or `0` when parsing failed. -/
def parseFloat (l : List Char) : ℚ := (parseFloatOpt l).getD 0

/-- Model of `strconv.Atoi`: optional sign, then at least one decimal digit.
`none` models a parse error. -/
def atoiOpt (l : List Char) : Option ℤ :=
  match l with
  | '-' :: r => if !r.isEmpty && r.all isDigit then some (-(natOfDigits r : ℤ)) else none
  | '+' :: r => if !r.isEmpty && r.all isDigit then some ((natOfDigits r : ℤ)) else none
  | r => if !r.isEmpty && r.all isDigit then some ((natOfDigits r : ℤ)) else none

/-- The value `main.go` actually uses after `v, err := strconv.Atoi(s)` (the
`err != nil` branches at lines 107-109 and 116-118 are empty): the parsed
value, or `0` when parsing failed. -/
def atoi (l : List Char) : ℤ := (atoiOpt l).getD 0

/-! ## The format checks (lines 51-62)

Both patterns are anchored with `^` only, match a fixed number of
characters, and have no trailing `$`; `MatchString` reports whether a match
occurs anywhere, which for a `^`-anchored pattern means: at the start. -/

/-- Character range test, the class `[lo-hi]`. -/
def inRange (lo hi c : Char) : Bool := lo ≤ c && c ≤ hi

/-- Model of `isdate.MatchString` for `^[0-9]{4}-[0-1][1-9]-[0-2][0-9]`
(line 51): the first ten characters fit the classes; anything may follow. -/
def dateMatch : List Char → Bool
  | c0 :: c1 :: c2 :: c3 :: c4 :: c5 :: c6 :: c7 :: c8 :: c9 :: _ =>
    isDigit c0 && isDigit c1 && isDigit c2 && isDigit c3 && (c4 == '-') &&
    inRange '0' '1' c5 && inRange '1' '9' c6 && (c7 == '-') &&
    inRange '0' '2' c8 && isDigit c9
  | _ => false

/-- Model of `istime.MatchString` for `^[0-2][0-9]:[0-5][0-9]` (line 58):
the first five characters fit the classes; anything may follow. -/
def timeMatch : List Char → Bool
  | c0 :: c1 :: c2 :: c3 :: c4 :: _ =>
    inRange '0' '2' c0 && isDigit c1 && (c2 == ':') && inRange '0' '5' c3 && isDigit c4
  | _ => false

/-! ## Data model (`Receipt` struct, lines 23-33) -/

/-- One purchased line (anonymous struct in `Items`, lines 27-30). -/
structure Item where
  ShortDescription : List Char
  Price : List Char
  deriving DecidableEq

/-- A submitted receipt, after JSON decoding (lines 23-33).  `Points` is
computed, not part of the input, so it is not a field here. -/
structure Receipt where
  Retailer : List Char
  PurchaseDate : List Char
  PurchaseTime : List Char
  Items : List Item
  Total : List Char
  deriving DecidableEq

/-! ## Scoring pieces (lines 66-123) -/

/-- Alphanumeric test: a one-character string matches `^[a-zA-Z0-9]*$`
(line 80) exactly when the character is in the class. -/
def isAlnum (c : Char) : Bool := isDigit c || inRange 'a' 'z' c || inRange 'A' 'Z' c

/-- The retailer loop (lines 76-85): one point per character of the retailer
name matching `^[a-zA-Z0-9]*$`. -/
def alnumCount (l : List Char) : ℕ := (l.filter isAlnum).length

/-- Go's `math.Mod(x, y) = x - y*trunc(x/y)` (exact for the values involved,
as documented for `math.Mod`). -/
def goMod (x y : ℚ) : ℚ := qsub x (qmul y (qofInt (qtrunc (qdiv x y))))

/-- The description-length bonus body (lines 100-102):
`price = price + (1 - math.Mod(price, 1)); points += int(price)`. -/
def descBonus (price : ℚ) : ℤ :=
  qtrunc (qadd price (qsub (qofInt 1) (goMod price (qofInt 1))))

/-- Per-item contribution of the description-length rule (lines 99-103); the
gate is `len(desc)%3 == 0` on the raw, untrimmed description. -/
def itemDescPts (it : Item) : ℤ :=
  if it.ShortDescription.length % 3 = 0 then descBonus (parseFloat it.Price) else 0

/-- Per-item odd-day bonus (lines 105-112); Go's `%` truncates, so the
remainder carries the sign of the dividend: `Int.tmod`. -/
def dayBonus (day : List Char) : ℤ := if Int.tmod (atoi day) 2 = 1 then 6 else 0

/-- Per-item afternoon bonus (lines 114-121). -/
def timeBonus (t : List Char) : ℤ := if 14 ≤ atoi t ∧ atoi t < 16 then 10 else 0

/-- Go slice `s[len(s)-2:]` (line 105): panics (`none`) when `len(s) < 2`. -/
def lastTwo (l : List Char) : Option (List Char) :=
  if l.length < 2 then none else some (l.drop (l.length - 2))

/-- Go slice `s[:2]` (line 114): panics (`none`) when `len(s) < 2`. -/
def firstTwo (l : List Char) : Option (List Char) :=
  if l.length < 2 then none else some (l.take 2)

/-- One iteration of the item loop (lines 91-123), threading the running
`(total, points)` pair; `none` models a slice-bounds panic. -/
def itemStep (r : Receipt) (acc : ℚ × ℤ) (it : Item) : Option (ℚ × ℤ) :=
  let itemPrice := parseFloat it.Price
  let total := qsub acc.1 itemPrice
  let p1 := acc.2 + itemDescPts it
  match lastTwo r.PurchaseDate with
  | none => none
  | some day =>
    let p2 := p1 + dayBonus day
    match firstTwo r.PurchaseTime with
    | none => none
    | some t => some (total, p2 + timeBonus t)

/-- The item loop `for i < len(receipt.Items)` (lines 90-123). -/
def itemsLoop (r : Receipt) : List Item → ℚ × ℤ → Option (ℚ × ℤ)
  | [], acc => some acc
  | it :: rest, acc =>
    match itemStep r acc it with
    | none => none
    | some acc' => itemsLoop r rest acc'

/-- The receipt-level points accumulated before the item loop (lines 66-88):
round-dollar total (+50), quarter-multiple total (+25), alphanumeric
retailer characters, and `points += (items / 2)` — the item-pair rule as
written, with no `* 5`. -/
def prelimPoints (r : Receipt) : ℤ :=
  (if goMod (parseFloat r.Total) (qofInt 1) = 0 then 50 else 0)
    + (if goMod (parseFloat r.Total) (mkRat 1 4) = 0 then 25 else 0)
    + (alnumCount r.Retailer : ℤ)
    + ((r.Items.length / 2 : ℕ) : ℤ)

/-- The validation failures `main.go` can join into its (inner) error
(lines 53, 60, 126), in the order they are joined. -/
inductive VErr where
  | dateFormat
  | timeFormat
  | totalMismatch
  deriving DecidableEq

/-- Observable outcome of `ReadReceipt` after a successful JSON decode.
`retErr` is the error value the function actually returns to its caller at
line 134; `innerErr` is the error accumulated in the *shadowed* local `err`
declared with `:=` at line 46, which is dead at line 134. -/
structure ReadResult where
  Points : ℤ
  retErr : Option (List VErr)
  innerErr : List VErr
  deriving DecidableEq

/-- Model of `ReadReceipt` (lines 39-135) on the successful-decode path.

Control flow of the source: the outer `err` (line 42) holds the JSON decode
error and is `nil` on this path.  Line 46 declares a *new* `err` inside the
`else` block with `:=`, shadowing the outer one; all validation failures
(date format line 54, time format line 61, total mismatch line 127) are
joined onto that inner variable, and the `if len(err.Error()) == 0` reset at
lines 129-132 also touches only the inner variable.  The `return receipt,
err` at line 134 is outside the `else` block and therefore returns the
*outer* `err`, which is `nil`: the returned error `retErr` is always `none`,
whatever `innerErr` accumulated.  `none` for the whole result models a
slice-bounds panic inside the item loop. -/
def ReadReceipt (r : Receipt) : Option ReadResult :=
  let e1 : List VErr := if dateMatch r.PurchaseDate then [] else [VErr.dateFormat]
  let e2 : List VErr := if timeMatch r.PurchaseTime then e1 else e1 ++ [VErr.timeFormat]
  match itemsLoop r r.Items (parseFloat r.Total, prelimPoints r) with
  | none => none
  | some (rem, pts) =>
    let e3 : List VErr := if rem ≠ 0 then e2 ++ [VErr.totalMismatch] else e2
    some { Points := pts, retErr := none, innerErr := e3 }

/-! ## Concrete receipts used by the claims -/

/-- Two items, all other rules contributing nothing: isolates the item-pair
rule. -/
def pairReceipt : Receipt :=
  { Retailer := []
    PurchaseDate := ['2', '0', '2', '2', '-', '0', '1', '-', '0', '2']
    PurchaseTime := ['1', '3', ':', '0', '1']
    Items := [⟨['a'], ['3', '.', '0', '5']⟩, ⟨['a'], ['3', '.', '0', '5']⟩]
    Total := ['6', '.', '1', '0'] }

/-- One item with description of length 3 and price `6.49`: isolates the
description-length rule. -/
def descReceipt : Receipt :=
  { Retailer := []
    PurchaseDate := ['2', '0', '2', '2', '-', '0', '1', '-', '0', '2']
    PurchaseTime := ['1', '3', ':', '0', '1']
    Items := [⟨['a', 'b', 'c'], ['6', '.', '4', '9']⟩]
    Total := ['6', '.', '4', '9'] }

/-- Empty retailer, everything else well-formed and consistent. -/
def emptyRetailerReceipt : Receipt :=
  { Retailer := []
    PurchaseDate := ['2', '0', '2', '2', '-', '0', '1', '-', '0', '1']
    PurchaseTime := ['1', '3', ':', '0', '1']
    Items := []
    Total := ['0'] }

/-- One item with a negative price and empty (length-0) description. -/
def negPriceReceipt : Receipt :=
  { Retailer := []
    PurchaseDate := ['2', '0', '2', '2', '-', '0', '1', '-', '0', '2']
    PurchaseTime := ['1', '3', ':', '0', '1']
    Items := [⟨[], ['-', '1', '0', '0', '0', '.', '5']⟩]
    Total := ['-', '1', '0', '0', '0', '.', '5'] }

/-- Declared total `10.00` against a single item priced `3.00`. -/
def mismatchReceipt : Receipt :=
  { Retailer := []
    PurchaseDate := ['2', '0', '2', '2', '-', '0', '1', '-', '0', '2']
    PurchaseTime := ['1', '3', ':', '0', '1']
    Items := [⟨['a', 'b'], ['3', '.', '0', '0']⟩]
    Total := ['1', '0', '.', '0', '0'] }

/-- Purchase date `-3`: its last two characters parse (via `Atoi`) to the
odd integer `-3`. -/
def negDayReceipt : Receipt :=
  { Retailer := []
    PurchaseDate := ['-', '3']
    PurchaseTime := ['1', '3', ':', '0', '1']
    Items := [⟨['a', 'b'], ['0', '.', '1', '0']⟩]
    Total := ['0', '.', '1', '0'] }

/-- Malformed date, malformed time and mismatching total, all at once. -/
def tripleBadReceipt : Receipt :=
  { Retailer := ['a']
    PurchaseDate := ['2', '0', '2', '2', '/', '0', '1', '/', '0', '1']
    PurchaseTime := ['9', ':', '3', '0']
    Items := []
    Total := ['1'] }



/-! ## Helper lemmas -/

/-- Sum of the parsed item prices, the amount the loop subtracts from the
running total. -/
def sumPrices : List Item → ℚ
  | [] => 0
  | it :: rest => parseFloat it.Price + sumPrices rest

/-- Sum of the per-item description-length contributions. -/
def sumDescPts : List Item → ℤ
  | [] => 0
  | it :: rest => itemDescPts it + sumDescPts rest

theorem goMod_one (q : ℚ) : goMod q (qofInt 1) = q - (qtrunc q : ℚ) := by
  simp only [goMod, qsub_eq, qmul_eq, qdiv_eq, qofInt_eq]
  push_cast
  rw [div_one, one_mul]

/-- The description-length bonus is `trunc(price) + 1`, for every price:
the source adds the complement `1 - frac`, which is `1` when `frac = 0`. -/
theorem descBonus_eq (q : ℚ) : descBonus q = qtrunc q + 1 := by
  have harg : qadd q (qsub (qofInt 1) (goMod q (qofInt 1))) = ((qtrunc q + 1 : ℤ) : ℚ) := by
    rw [qadd_eq, qsub_eq, goMod_one, qofInt_eq]
    push_cast
    ring
  rw [descBonus, harg, qtrunc_intCast]

theorem itemDescPts_nonneg {it : Item} (hp : 0 ≤ parseFloat it.Price) :
    0 ≤ itemDescPts it := by
  rw [itemDescPts]
  split
  · rw [descBonus_eq]
    have := qtrunc_nonneg hp
    omega
  · exact le_refl 0

theorem sumDescPts_nonneg {items : List Item}
    (hp : ∀ it ∈ items, 0 ≤ parseFloat it.Price) : 0 ≤ sumDescPts items := by
  induction items with
  | nil => exact le_refl 0
  | cons it rest ih =>
    rw [sumDescPts]
    have h1 := itemDescPts_nonneg (hp it (List.mem_cons_self it rest))
    have h2 := ih fun x hx => hp x (List.mem_cons_of_mem it hx)
    omega

theorem prelimPoints_nonneg (r : Receipt) : 0 ≤ prelimPoints r := by
  rw [prelimPoints]
  have h1 : (0 : ℤ) ≤ if goMod (parseFloat r.Total) (qofInt 1) = 0 then 50 else 0 := by
    split <;> norm_num
  have h2 : (0 : ℤ) ≤ if goMod (parseFloat r.Total) (mkRat 1 4) = 0 then 25 else 0 := by
    split <;> norm_num
  have h3 : (0 : ℤ) ≤ (alnumCount r.Retailer : ℤ) := by positivity
  have h4 : (0 : ℤ) ≤ ((r.Items.length / 2 : ℕ) : ℤ) := by positivity
  omega

theorem dayBonus_nonneg (day : List Char) : 0 ≤ dayBonus day := by
  rw [dayBonus]; split <;> norm_num

theorem timeBonus_nonneg (t : List Char) : 0 ≤ timeBonus t := by
  rw [timeBonus]; split <;> norm_num

/-- Closed form of the item loop when the two slices succeed: the loop
subtracts every parsed price from the total, and adds the description
bonuses once per qualifying item and the day/time bonuses once per item. -/
theorem itemsLoop_closed (r : Receipt) {day t : List Char}
    (hd : lastTwo r.PurchaseDate = some day) (ht : firstTwo r.PurchaseTime = some t) :
    ∀ (items : List Item) (tot : ℚ) (p : ℤ),
      itemsLoop r items (tot, p) =
        some (tot - sumPrices items,
          p + sumDescPts items + items.length * (dayBonus day + timeBonus t)) := by
  intro items
  induction items with
  | nil =>
    intro tot p
    simp [itemsLoop, sumPrices, sumDescPts]
  | cons it rest ih =>
    intro tot p
    simp only [itemsLoop, itemStep, hd, ht]
    rw [ih]
    simp only [Option.some.injEq, Prod.mk.injEq, sumPrices, sumDescPts, List.length_cons]
    constructor
    · rw [qsub_eq]; ring
    · push_cast; ring

theorem itemStep_some {r : Receipt} {acc : ℚ × ℤ} {it : Item} {res : ℚ × ℤ}
    (h : itemStep r acc it = some res) :
    ∃ day t, lastTwo r.PurchaseDate = some day ∧ firstTwo r.PurchaseTime = some t := by
  unfold itemStep at h
  rcases hd : lastTwo r.PurchaseDate with _ | day
  · rw [hd] at h; simp at h
  · rcases ht : firstTwo r.PurchaseTime with _ | t
    · rw [hd, ht] at h; simp at h
    · exact ⟨day, t, rfl, rfl⟩

theorem itemsLoop_cons_some {r : Receipt} {it : Item} {rest : List Item}
    {acc : ℚ × ℤ} {res : ℚ × ℤ}
    (h : itemsLoop r (it :: rest) acc = some res) :
    ∃ day t, lastTwo r.PurchaseDate = some day ∧ firstTwo r.PurchaseTime = some t := by
  rw [itemsLoop] at h
  rcases hstep : itemStep r acc it with _ | acc'
  · rw [hstep] at h; simp at h
  · exact itemStep_some hstep

theorem dateMatch_append (s t : List Char) (h : dateMatch s = true) :
    dateMatch (s ++ t) = true :=
  match s, h with
  | _ :: _ :: _ :: _ :: _ :: _ :: _ :: _ :: _ :: _ :: _, h => h
  | [], h => Bool.noConfusion h
  | [_], h => Bool.noConfusion h
  | [_, _], h => Bool.noConfusion h
  | [_, _, _], h => Bool.noConfusion h
  | [_, _, _, _], h => Bool.noConfusion h
  | [_, _, _, _, _], h => Bool.noConfusion h
  | [_, _, _, _, _, _], h => Bool.noConfusion h
  | [_, _, _, _, _, _, _], h => Bool.noConfusion h
  | [_, _, _, _, _, _, _, _], h => Bool.noConfusion h
  | [_, _, _, _, _, _, _, _, _], h => Bool.noConfusion h

theorem timeMatch_append (s t : List Char) (h : timeMatch s = true) :
    timeMatch (s ++ t) = true :=
  match s, h with
  | _ :: _ :: _ :: _ :: _ :: _, h => h
  | [], h => Bool.noConfusion h
  | [_], h => Bool.noConfusion h
  | [_, _], h => Bool.noConfusion h
  | [_, _, _], h => Bool.noConfusion h
  | [_, _, _, _], h => Bool.noConfusion h

/-! ## Witness receipts -/

/-- The specification's worked example: retailer `Target`, one item
`Mountain Dew 12PK` at `6.49`, total `6.49`, date `2022-01-01`, time
`13:01`. -/
def simpleReceipt : Receipt :=
  { Retailer := ['T', 'a', 'r', 'g', 'e', 't']
    PurchaseDate := ['2', '0', '2', '2', '-', '0', '1', '-', '0', '1']
    PurchaseTime := ['1', '3', ':', '0', '1']
    Items := [⟨['M', 'o', 'u', 'n', 't', 'a', 'i', 'n', ' ', 'D', 'e', 'w', ' ', '1', '2', 'P', 'K'],
               ['6', '.', '4', '9']⟩]
    Total := ['6', '.', '4', '9'] }

/-- A receipt purchased on day `01` (positive odd), one item. -/
def oddDayReceipt : Receipt :=
  { Retailer := []
    PurchaseDate := ['2', '0', '2', '2', '-', '0', '1', '-', '0', '1']
    PurchaseTime := ['1', '3', ':', '0', '1']
    Items := [⟨['a', 'b'], ['0']⟩]
    Total := ['0'] }

/-- A receipt whose purchase date is a single character, with one item. -/
def shortDateReceipt : Receipt :=
  { Retailer := []
    PurchaseDate := ['3']
    PurchaseTime := ['1', '3', ':', '0', '1']
    Items := [⟨['a'], ['1']⟩]
    Total := ['1'] }

/-! ## Claims -/

/-- C1: the item-pair rule is claimed to contribute `floor(itemCount/2) * 5`
points.  On `pairReceipt` (two items, every other rule contributing zero)
the code produces 1 point: line 88 reads `points += (items / 2)`, omitting
the `* 5` its own comment (line 86) promises.  The claim would require 5. -/
theorem C1_pair_bonus_eval : ReadReceipt pairReceipt = some ⟨1, none, []⟩ := by decide

/-- C2: the description rule is claimed to add `ceil(price * 0.2)` for items
whose trimmed description length is a multiple of 3.  On `descReceipt`
(description `abc`, price `6.49`) the code adds 7 points — lines 100-102
never multiply by `0.2` (and line 99 uses the untrimmed length), computing
`int(price + (1 - mod(price,1))) = 7` instead of `ceil(6.49*0.2) = 2`. -/
theorem C2_desc_rule_eval : ReadReceipt descReceipt = some ⟨7, none, []⟩ := by decide

/-- C3: an empty-retailer receipt is claimed to fail with `MissingField`.
The code performs no retailer check at all (line 48: `//Retailer is safe`;
the struct tag `binding:"required"` is dead because line 42 decodes with
`json.Decoder`, not gin binding), and accepts `emptyRetailerReceipt` with
no error of any kind. -/
theorem C3_empty_retailer_eval :
    emptyRetailerReceipt.Retailer = [] ∧
    ReadReceipt emptyRetailerReceipt = some ⟨75, none, []⟩ := by decide

/-- C4 counterexample: on `negPriceReceipt` (one item priced `-1000.5`,
empty description) the computed points total is `-974 < 0`: the
description rule contributes `trunc(-1000.5) + 1 = -999`, refuting "the
computed points total is a non-negative integer" for every input. -/
theorem C4_counterexample :
    ReadReceipt negPriceReceipt = some ⟨-974, none, []⟩ ∧ ¬ (0 ≤ (-974 : ℤ)) := by
  exact ⟨by decide, by decide⟩

/-- C4 (amended): for every receipt all of whose item prices parse to
non-negative values, the computed points total is non-negative. -/
theorem C4_points_nonneg (r : Receipt) (res : ReadResult)
    (hp : ∀ it ∈ r.Items, 0 ≤ parseFloat it.Price)
    (h : ReadReceipt r = some res) : 0 ≤ res.Points := by
  rcases hItems : r.Items with _ | ⟨it, rest⟩
  · simp only [ReadReceipt, hItems, itemsLoop, Option.some.injEq] at h
    rw [← h]
    exact prelimPoints_nonneg r
  · have hex : ∃ day t, lastTwo r.PurchaseDate = some day ∧ firstTwo r.PurchaseTime = some t := by
      have h2 := h
      simp only [ReadReceipt] at h2
      rcases hloop : itemsLoop r r.Items (parseFloat r.Total, prelimPoints r) with _ | pr
      · rw [hloop] at h2; simp at h2
      · rw [hItems] at hloop
        exact itemsLoop_cons_some hloop
    obtain ⟨day, t, hd, ht⟩ := hex
    simp only [ReadReceipt, itemsLoop_closed r hd ht, Option.some.injEq] at h
    rw [← h]
    show 0 ≤ prelimPoints r + sumDescPts r.Items + (r.Items.length : ℤ) * (dayBonus day + timeBonus t)
    have h1 := prelimPoints_nonneg r
    have h2 := sumDescPts_nonneg hp
    have h3 := dayBonus_nonneg day
    have h4 := timeBonus_nonneg t
    have h5 : (0 : ℤ) ≤ (r.Items.length : ℤ) := by positivity
    have h6 : (0 : ℤ) ≤ (r.Items.length : ℤ) * (dayBonus day + timeBonus t) :=
      mul_nonneg h5 (by omega)
    omega

/-- C4 witness: the amended statement applied to the specification's worked
example, whose points come out to 12. -/
theorem C4_witness : 0 ≤ (ReadResult.mk 12 none []).Points :=
  C4_points_nonneg simpleReceipt ⟨12, none, []⟩ (by decide) (by decide)

/-- C5 counterexample: the whole-dollar price `5` has fractional part
exactly zero, yet the description rule contributes `6 = 5 + 1`, not `5`:
line 101 adds `1 - mod(price,1) = 1`, so a zero-fraction price *does*
receive the `+1` bump the claim forbids. -/
theorem C5_counterexample :
    goMod (mkRat 5 1) (qofInt 1) = 0 ∧
    descBonus (mkRat 5 1) = 6 ∧ descBonus (mkRat 5 1) ≠ 5 := by
  exact ⟨by decide, by decide, by decide⟩

/-- C5 (amended): whenever a price has fractional part exactly zero, the
description rule contributes exactly `price + 1`. -/
theorem C5_whole_dollar_gets_bump (price : ℚ) (h : goMod price (qofInt 1) = 0) :
    ((descBonus price : ℤ) : ℚ) = price + 1 := by
  rw [goMod_one] at h
  have hq : (qtrunc price : ℚ) = price := by linarith
  rw [descBonus_eq]
  push_cast
  rw [hq]

/-- C5 witness: the amended statement at the whole-dollar price `3`. -/
theorem C5_witness : ((descBonus (mkRat 3 1) : ℤ) : ℚ) = mkRat 3 1 + 1 :=
  C5_whole_dollar_gets_bump (mkRat 3 1) (by decide)

/-- C6: a `TotalMismatch` failure is claimed to be reported whenever the
remainder is nonzero.  On `mismatchReceipt` (total `10.00`, one item
`3.00`, remainder 7) the mismatch is recorded only in the shadowed inner
`err` (line 46) and the function returns the outer, nil error (line 134):
the caller sees no failure and the receipt is accepted. -/
theorem C6_total_mismatch_eval :
    ReadReceipt mismatchReceipt = some ⟨75, none, [VErr.totalMismatch]⟩ := by decide

/-- C7 counterexample: purchase date `-3`: its last two characters parse to
the odd integer `-3`, yet the receipt's points are 0 — Go's `%` yields
`-3 % 2 = -1 ≠ 1`, so the odd-day rule contributes nothing, not
`6 * itemCount = 6`. -/
theorem C7_counterexample :
    lastTwo negDayReceipt.PurchaseDate = some ['-', '3'] ∧
    atoiOpt ['-', '3'] = some (-3) ∧ Odd (-3 : ℤ) ∧
    ReadReceipt negDayReceipt = some ⟨0, none, [VErr.dateFormat]⟩ := by
  exact ⟨by decide, by decide, ⟨-2, by norm_num⟩, by decide⟩

/-- C7 (amended): when the last two characters of the purchase date parse
to a *positive* odd integer, the odd-day rule contributes exactly
`6 * itemCount` on top of the other rules' contributions. -/
theorem C7_odd_day_contribution (r : Receipt) (day t : List Char) (d : ℤ) (res : ReadResult)
    (hd : lastTwo r.PurchaseDate = some day)
    (hparse : atoiOpt day = some d) (hpos : 0 < d) (hodd : d % 2 = 1)
    (ht : firstTwo r.PurchaseTime = some t)
    (h : ReadReceipt r = some res) :
    res.Points = prelimPoints r + sumDescPts r.Items
      + (r.Items.length : ℤ) * timeBonus t + 6 * (r.Items.length : ℤ) := by
  have hatoi : atoi day = d := by rw [atoi, hparse]; rfl
  have htmod : Int.tmod d 2 = 1 := by
    rw [Int.tmod_eq_emod (le_of_lt hpos) (by norm_num)]
    exact hodd
  have hday : dayBonus day = 6 := by rw [dayBonus, hatoi, if_pos htmod]
  simp only [ReadReceipt, itemsLoop_closed r hd ht, Option.some.injEq] at h
  rw [← h]
  show prelimPoints r + sumDescPts r.Items + (r.Items.length : ℤ) * (dayBonus day + timeBonus t)
      = prelimPoints r + sumDescPts r.Items
        + (r.Items.length : ℤ) * timeBonus t + 6 * (r.Items.length : ℤ)
  rw [hday]
  ring

/-- C7 witness: the amended statement on `oddDayReceipt` (day `01`). -/
theorem C7_witness :
    (ReadResult.mk 81 none []).Points
      = prelimPoints oddDayReceipt + sumDescPts oddDayReceipt.Items
        + (oddDayReceipt.Items.length : ℤ) * timeBonus ['1', '3']
        + 6 * (oddDayReceipt.Items.length : ℤ) :=
  C7_odd_day_contribution oddDayReceipt ['0', '1'] ['1', '3'] 1 ⟨81, none, []⟩
    (by decide) (by decide) (by decide) (by decide) (by decide) (by decide)

/-- C8: all failing checks are claimed to be collected and reported
together, fully rejecting the receipt.  On `tripleBadReceipt` all three
checks fail and are indeed *collected* (shadowed inner error), but the
function returns the outer nil error: nothing is reported and the receipt
is accepted, refuting the reported-together / fully-rejected claim. -/
theorem C8_no_error_reported_eval :
    ReadReceipt tripleBadReceipt
      = some ⟨76, none, [VErr.dateFormat, VErr.timeFormat, VErr.totalMismatch]⟩ := by decide

/-- C9: when the purchase date (or time) has fewer than two characters and
there is at least one item, the scoring loop's slice `purchaseDate[len-2:]`
(line 105) resp. `purchaseTime[:2]` (line 114) is out of range and
`ReadReceipt` panics (modelled as `none`). -/
theorem C9_short_date_or_time_panics (r : Receipt) (hn : 1 ≤ r.Items.length)
    (hshort : r.PurchaseDate.length < 2 ∨ r.PurchaseTime.length < 2) :
    ReadReceipt r = none := by
  rcases hItems : r.Items with _ | ⟨it, rest⟩
  · rw [hItems] at hn; simp at hn
  · have hstep : ∀ acc, itemStep r acc it = none := by
      intro acc
      rcases hshort with hcase | hcase
      · have hd : lastTwo r.PurchaseDate = none := by rw [lastTwo, if_pos hcase]
        simp [itemStep, hd]
      · have ht : firstTwo r.PurchaseTime = none := by rw [firstTwo, if_pos hcase]
        rcases hd : lastTwo r.PurchaseDate with _ | day
        · simp [itemStep, hd]
        · simp [itemStep, hd, ht]
    simp only [ReadReceipt, hItems, itemsLoop, hstep]

/-- C9 witness: the panic on a one-character purchase date with one item. -/
theorem C9_witness : ReadReceipt shortDateReceipt = none :=
  C9_short_date_or_time_panics shortDateReceipt (by decide) (Or.inl (by decide))

/-- C10: both format patterns are anchored only at the start of the string:
whenever a string passes the date (resp. time) check, so does any extension
of it by trailing characters. -/
theorem C10_matches_anchored_at_start (s t : List Char) :
    (dateMatch s = true → dateMatch (s ++ t) = true) ∧
    (timeMatch s = true → timeMatch (s ++ t) = true) :=
  ⟨fun h => dateMatch_append s t h, fun h => timeMatch_append s t h⟩

/-- C10 witness: `2022-01-01XYZ` passes the date check and `13:01PM` passes
the time check. -/
theorem C10_witness :
    dateMatch (['2', '0', '2', '2', '-', '0', '1', '-', '0', '1'] ++ ['X', 'Y', 'Z']) = true ∧
    timeMatch (['1', '3', ':', '0', '1'] ++ ['P', 'M']) = true :=
  ⟨(C10_matches_anchored_at_start ['2', '0', '2', '2', '-', '0', '1', '-', '0', '1']
      ['X', 'Y', 'Z']).1 (by decide),
   (C10_matches_anchored_at_start ['1', '3', ':', '0', '1'] ['P', 'M']).2 (by decide)⟩

end ReceiptProc

